import Mathlib

/-!
Verification of the order-lifecycle core of the hungerwood backend:
order status state machine (`src/utils/orderStatusValidator.js`), wallet
ledger (`src/services/wallet.service.js`), referral reward processor
(`src/services/referral.service.js`), order status update paths
(`src/controllers/order.controller.js`, order service) and the SSE
event broadcaster (`src/services/event.service.js`).

Conventions of the embedding:
* JS numbers used for money are modelled as rationals (`Rat`);
* documents are records, collections are association lists keyed by ids;
* a thrown JS error is an `Except.error` value, and the mutated state is
  threaded explicitly: each stateful operation returns `result × state`;
* `await`/`save` boundaries are kept visible where a claim is about
  interleaving (the two-phase debit model further below).
-/

/-- `ORDER_STATUS` from `src/utils/constants.js`. -/
inductive OrderStatus where
  | RECEIVED
  | CONFIRMED
  | PREPARING
  | READY
  | OUT_FOR_DELIVERY
  | COMPLETED
  | CANCELLED
deriving DecidableEq, Repr, Fintype

/-- `STATUS_FLOW` from `src/utils/orderStatusValidator.js` (lines 9-17).
The JS object maps each of the seven status strings to an array; on the
status enum the lookup is total, so it is a total function here (the
`!allowedStatuses` branch of `validateStatusTransition` only fires for
strings outside the enum). -/
def STATUS_FLOW : OrderStatus → List OrderStatus
  | .RECEIVED => [.CONFIRMED, .CANCELLED]
  | .CONFIRMED => [.PREPARING, .CANCELLED]
  | .PREPARING => [.READY, .CANCELLED]
  | .READY => [.OUT_FOR_DELIVERY, .CANCELLED]
  | .OUT_FOR_DELIVERY => [.COMPLETED]
  | .COMPLETED => []
  | .CANCELLED => []

/-- `validateStatusTransition` from `src/utils/orderStatusValidator.js`
(lines 25-33): `STATUS_FLOW[currentStatus].includes(newStatus)`. -/
def validateStatusTransition (currentStatus newStatus : OrderStatus) : Bool :=
  (STATUS_FLOW currentStatus).contains newStatus

/-- `getAllowedNextStatuses` from `src/utils/orderStatusValidator.js`
(lines 40-42). -/
def getAllowedNextStatuses (currentStatus : OrderStatus) : List OrderStatus :=
  STATUS_FLOW currentStatus

/-- The allowed-set table exactly as written in the specification (§4.1),
used as the comparison point for the refinement claim C1. -/
def specAllowedSet : OrderStatus → List OrderStatus
  | .RECEIVED => [.CONFIRMED, .CANCELLED]
  | .CONFIRMED => [.PREPARING, .CANCELLED]
  | .PREPARING => [.READY, .CANCELLED]
  | .READY => [.OUT_FOR_DELIVERY, .CANCELLED]
  | .OUT_FOR_DELIVERY => [.COMPLETED]
  | .COMPLETED => []
  | .CANCELLED => []

/-- Transaction directions, `TRANSACTION_TYPES` of
`src/models/WalletTransaction.model.js`. -/
inductive TxType where
  | CREDIT
  | DEBIT
deriving DecidableEq, Repr

/-- Transaction reasons, `TRANSACTION_REASONS` of
`src/models/WalletTransaction.model.js`. -/
inductive TxReason where
  | ORDER_PAYMENT
  | ORDER_REFUND
  | REFERRAL_BONUS_REFERRER
  | REFERRAL_BONUS_NEW_USER
  | CASHBACK
  | ADMIN_CREDIT
  | ADMIN_DEBIT
  | PROMOTIONAL_BONUS
deriving DecidableEq, Repr

/-- Wallet- and referral-relevant fields of the User document
(`User.model.js`: `walletBalance` is a Number with default 0, the referral
fields default to null/false/0).  Free-text and auth fields that no claim
touches are omitted. -/
structure UserRec where
  walletBalance : Rat
  referredBy : Option String
  hasUsedReferral : Bool
  referralRewarded : Bool
  referralCount : Rat
  referralEarnings : Rat
  referralCode : String
deriving DecidableEq, Repr

/-- A WalletTransaction document as created by `creditWallet`/`debitWallet`
(`src/services/wallet.service.js`).  The free-text `description` and the
`metadata` object are omitted: no claim mentions them. -/
structure WalletTx where
  user : String
  type : TxType
  amount : Rat
  reason : TxReason
  orderId : Option String
  referralId : Option String
  balanceAfter : Rat
deriving DecidableEq, Repr

/-- The `options` argument of the wallet operations (the claim-relevant
`orderId` and `referralId` links). -/
structure TxOpts where
  orderId : Option String
  referralId : Option String
deriving DecidableEq, Repr

/-- One entry of an order's `statusHistory` array. -/
structure HistEntry where
  status : OrderStatus
  timestamp : String
  updatedBy : Option String
deriving DecidableEq, Repr

/-- An Order document with the fields the claims touch: identifiers
(Mongo `_id` and the human-readable `orderId` code), owning user, total,
status, status history and the three side-effect timestamps
(`Order.model.js` / JsonDB order records).  `user` is an `Option` because
`processReferralReward` checks `if (!userId)`; `statusHistory` is an
`Option` because JsonDB-created orders lack the field entirely and the
controller's `if (!order.statusHistory)` seeding check distinguishes a
missing field (falsy) from a present empty array (truthy in JS). -/
structure OrderRec where
  mongoId : String
  orderId : String
  user : Option String
  totalAmount : Rat
  status : OrderStatus
  statusHistory : Option (List HistEntry)
  createdAt : String
  updatedAt : String
  preparedAt : Option String
  deliveredAt : Option String
  cancelledAt : Option String
deriving DecidableEq, Repr

/-- Association-list lookup keyed by strings (document lookup by id). -/
def lookupAssoc {β : Type} : List (String × β) → String → Option β
  | [], _ => none
  | (k, v) :: rest, key => if k = key then some v else lookupAssoc rest key

/-- Association-list update: replace the value at the key in place, or
append the binding if the key is absent (document save). -/
def setAssoc {β : Type} : List (String × β) → String → β → List (String × β)
  | [], key, v => [(key, v)]
  | (k, w) :: rest, key, v =>
      if k = key then (key, v) :: rest else (k, w) :: setAssoc rest key v

/-- The persistent state the ledger operates on: the User collection, the
append-only WalletTransaction collection, and the Order collection (read
by the referral processor's first-order check). -/
structure LedgerState where
  users : List (String × UserRec)
  txs : List WalletTx
  orders : List OrderRec
deriving DecidableEq, Repr

/-- Error taxonomy of the wallet/referral services, one constructor per
distinct thrown error.  `ReferenceErrorUpdatedUser` models the JS
`ReferenceError` raised by the identifier `updatedUser` in `creditWallet`
(see that definition). -/
inductive WalletErr where
  | InvalidAmount
  | AccountNotFound
  | InsufficientBalance
  | ExceedsPolicyLimit
  | ExceedsOrderTotal
  | ReferenceErrorUpdatedUser
deriving DecidableEq, Repr

/-- The success payload `{previousBalance, newBalance, transaction}` of a
wallet operation. -/
structure WalletOpOk where
  previousBalance : Rat
  newBalance : Rat
  transaction : WalletTx
deriving DecidableEq, Repr

/-- Function `getWalletBalance` of `src/services/wallet.service.js`
(lines 15-27): throws `User not found` if the user does not exist,
otherwise returns `user.walletBalance || 0` (the schema makes the field a
total number with default 0, so the `|| 0` is the identity here). -/
def getWalletBalance (st : LedgerState) (userId : String) : Except WalletErr Rat :=
  match lookupAssoc st.users userId with
  | none => .error .AccountNotFound
  | some user => .ok user.walletBalance

/-- Function `creditWallet` of `src/services/wallet.service.js`
(lines 36-82).  Faithful control flow: amount check, user lookup, balance
update and save, transaction append and save — and then the return
statement.  The returned object at line 76 is
`{ success, transaction, previousBalance, newBalance, user: updatedUser }`
where `updatedUser` is not defined anywhere in the function or module, so
in JS the return statement itself throws
`ReferenceError: updatedUser is not defined` — after both writes have
already been persisted.  The embedding keeps exactly that: the state
mutations happen, then the call finishes with the
`ReferenceErrorUpdatedUser` error instead of the success value. -/
def creditWallet (st : LedgerState) (userId : String) (amount : Rat)
    (reason : TxReason) (opts : TxOpts) : Except WalletErr WalletOpOk × LedgerState :=
  if amount ≤ 0 then (.error .InvalidAmount, st)
  else
    match lookupAssoc st.users userId with
    | none => (.error .AccountNotFound, st)
    | some user =>
        let currentBalance := user.walletBalance
        let newBalance := currentBalance + amount
        let st1 : LedgerState :=
          { st with users := setAssoc st.users userId { user with walletBalance := newBalance } }
        let tx : WalletTx :=
          { user := userId, type := .CREDIT, amount := amount, reason := reason,
            orderId := opts.orderId, referralId := opts.referralId,
            balanceAfter := newBalance }
        let st2 : LedgerState := { st1 with txs := st1.txs ++ [tx] }
        (.error .ReferenceErrorUpdatedUser, st2)

/-- Function `debitWallet` of `src/services/wallet.service.js`
(lines 91-142): amount check, user lookup, balance check against the
snapshot, balance update and save, transaction append and save, success
result containing previousBalance, newBalance and the transaction. -/
def debitWallet (st : LedgerState) (userId : String) (amount : Rat)
    (reason : TxReason) (opts : TxOpts) : Except WalletErr WalletOpOk × LedgerState :=
  if amount ≤ 0 then (.error .InvalidAmount, st)
  else
    match lookupAssoc st.users userId with
    | none => (.error .AccountNotFound, st)
    | some user =>
        let currentBalance := user.walletBalance
        if currentBalance < amount then (.error .InsufficientBalance, st)
        else
          let newBalance := currentBalance - amount
          let st1 : LedgerState :=
            { st with users := setAssoc st.users userId { user with walletBalance := newBalance } }
          let tx : WalletTx :=
            { user := userId, type := .DEBIT, amount := amount, reason := reason,
              orderId := opts.orderId, referralId := none,
              balanceAfter := newBalance }
          let st2 : LedgerState := { st1 with txs := st1.txs ++ [tx] }
          (.ok { previousBalance := currentBalance, newBalance := newBalance,
                 transaction := tx }, st2)

/-- Function `calculateMaxWalletUsage` of `src/services/wallet.service.js`
(lines 175-178): `Math.floor((orderTotal * maxPercentage) / 100)`. -/
def calculateMaxWalletUsage (orderTotal maxPercentage : Rat) : Int :=
  Int.floor (orderTotal * maxPercentage / 100)

/-- Success shapes of `validateWalletUsage`: the trivial
`walletAmount === 0` early return, or the full validation result. -/
inductive UsageOk where
  | noWallet
  | validated (currentBalance : Rat) (maxAllowed : Int)
deriving DecidableEq, Repr

/-- Function `validateWalletUsage` of `src/services/wallet.service.js`
(lines 183-223), checks in source order: negative amount, zero amount
early return, balance fetch (throws `User not found` for a missing user),
insufficient balance, policy-percentage limit, order-total limit. -/
def validateWalletUsage (st : LedgerState) (userId : String)
    (walletAmount orderTotal maxPercentage : Rat) : Except WalletErr UsageOk :=
  if walletAmount < 0 then .error .InvalidAmount
  else if walletAmount = 0 then .ok .noWallet
  else
    match getWalletBalance st userId with
    | .error e => .error e
    | .ok currentBalance =>
        if walletAmount > currentBalance then .error .InsufficientBalance
        else
          let maxAllowed := calculateMaxWalletUsage orderTotal maxPercentage
          if walletAmount > (maxAllowed : Rat) then .error .ExceedsPolicyLimit
          else if walletAmount > orderTotal then .error .ExceedsOrderTotal
          else .ok (.validated currentBalance maxAllowed)

/-- A call of the ledger: one credit or one debit request. -/
inductive LedgerOp where
  | credit (userId : String) (amount : Rat) (reason : TxReason) (opts : TxOpts)
  | debit (userId : String) (amount : Rat) (reason : TxReason) (opts : TxOpts)
deriving DecidableEq, Repr

/-- State effect of one ledger call (successful or failed: a failed call
returns the state it left behind, which for pre-check failures is the
unchanged input state). -/
def runOp (st : LedgerState) (op : LedgerOp) : LedgerState :=
  match op with
  | .credit u a r o => (creditWallet st u a r o).snd
  | .debit u a r o => (debitWallet st u a r o).snd

/-- State after a sequence of ledger calls. -/
def runOps (st : LedgerState) (ops : List LedgerOp) : LedgerState :=
  ops.foldl runOp st

/-- Sum of the CREDIT transaction amounts recorded for a user in a
transaction log. -/
def creditSumL (txs : List WalletTx) (userId : String) : Rat :=
  ((txs.filter (fun t => t.user == userId && t.type == TxType.CREDIT)).map
    WalletTx.amount).sum

/-- Sum of the DEBIT transaction amounts recorded for a user in a
transaction log. -/
def debitSumL (txs : List WalletTx) (userId : String) : Rat :=
  ((txs.filter (fun t => t.user == userId && t.type == TxType.DEBIT)).map
    WalletTx.amount).sum

/-- Cache/log consistency: every stored user's cached `walletBalance`
equals the sum of their CREDIT amounts minus the sum of their DEBIT
amounts in the transaction log. -/
def ledgerConsistent (st : LedgerState) : Prop :=
  ∀ u rec, lookupAssoc st.users u = some rec →
    rec.walletBalance = creditSumL st.txs u - debitSumL st.txs u

/-- Read phase of `debitWallet`: everything before the `await user.save()`
suspension point of `src/services/wallet.service.js` lines 93-107 — the
amount check, the `User.findById` snapshot read, and the balance check
performed on that snapshot.  Returns the snapshot document. -/
def debitPhase1 (st : LedgerState) (userId : String) (amount : Rat) :
    Except WalletErr UserRec :=
  if amount ≤ 0 then .error .InvalidAmount
  else
    match lookupAssoc st.users userId with
    | none => .error .AccountNotFound
    | some user =>
        if user.walletBalance < amount then .error .InsufficientBalance
        else .ok user

/-- Write phase of `debitWallet` (lines 110-137): computes the new balance
from the phase-1 snapshot (not from the current stored document), saves
the snapshot document with that balance, and appends the DEBIT
transaction. -/
def debitPhase2 (st : LedgerState) (userId : String) (amount : Rat)
    (reason : TxReason) (opts : TxOpts) (snapshot : UserRec) :
    WalletOpOk × LedgerState :=
  let currentBalance := snapshot.walletBalance
  let newBalance := currentBalance - amount
  let st1 : LedgerState :=
    { st with users := setAssoc st.users userId { snapshot with walletBalance := newBalance } }
  let tx : WalletTx :=
    { user := userId, type := .DEBIT, amount := amount, reason := reason,
      orderId := opts.orderId, referralId := none, balanceAfter := newBalance }
  ({ previousBalance := currentBalance, newBalance := newBalance, transaction := tx },
   { st1 with txs := st1.txs ++ [tx] })

/-- Referral configuration (`src/config/env.js`):
`referralBonusNewUser` (default 50), `referralBonusReferrer` (default 50),
`minOrderAmountForReferral` (default 199). -/
structure ReferralConfig where
  referralBonusNewUser : Rat
  referralBonusReferrer : Rat
  minOrderAmountForReferral : Rat
deriving DecidableEq, Repr

/-- Normal (non-throwing) outcomes of `processReferralReward`: the many
early `return` branches (resolution failure or a failed qualification
check, all merely logged), or the full success result. -/
inductive RewardOutcome where
  | skipped
  | rewarded (newUserBonus referrerBonus : Rat)
deriving DecidableEq, Repr

/-- The idempotency guard query of `processReferralReward`
(`WalletTransaction.exists` with the user, reason
`REFERRAL_BONUS_NEW_USER` and type CREDIT,
`src/services/referral.service.js` lines 481-485). -/
def hasNewUserRewardTx (txs : List WalletTx) (userId : String) : Bool :=
  txs.any (fun t =>
    t.user == userId && t.reason == TxReason.REFERRAL_BONUS_NEW_USER &&
      t.type == TxType.CREDIT)

/-- Update a stored user document in place (mongoose change tracking:
`save()` writes the modified fields onto the stored document). -/
def adjustUser (st : LedgerState) (userId : String) (f : UserRec → UserRec) :
    LedgerState :=
  match lookupAssoc st.users userId with
  | none => st
  | some u => { st with users := setAssoc st.users userId (f u) }

/-- Function `processReferralReward` of `src/services/referral.service.js`
(lines 456-589), in source order: resolve the order's user id (`!userId`
check), load the user, referral checks (`!referredBy || !hasUsedReferral`),
idempotency guard against the transaction log, previous-order count
(orders of the user other than this one and not CANCELLED), minimum order
amount, referrer load; then credit the new user, credit the referrer,
update the referrer's counters from the pre-credit snapshot, and mark the
new user rewarded.  A failed credit is re-thrown by the inner catch and
again by the function's outer catch (lines 585-588), so it surfaces as an
`Except.error`; every early `return` is a normal `.ok .skipped`. -/
def processReferralReward (cfg : ReferralConfig) (st : LedgerState)
    (order : OrderRec) : Except WalletErr RewardOutcome × LedgerState :=
  match order.user with
  | none => (.ok .skipped, st)
  | some uid =>
      match lookupAssoc st.users uid with
      | none => (.ok .skipped, st)
      | some newUser =>
          match newUser.referredBy with
          | none => (.ok .skipped, st)
          | some rid =>
              if !newUser.hasUsedReferral then (.ok .skipped, st)
              else if hasNewUserRewardTx st.txs uid then (.ok .skipped, st)
              else
                let previousOrderCount := (st.orders.filter (fun o =>
                  o.user == some uid && !(o.mongoId == order.mongoId) &&
                    !(o.status == OrderStatus.CANCELLED))).length
                if previousOrderCount > 0 then (.ok .skipped, st)
                else if order.totalAmount < cfg.minOrderAmountForReferral then
                  (.ok .skipped, st)
                else
                  match lookupAssoc st.users rid with
                  | none => (.ok .skipped, st)
                  | some referrer =>
                      match creditWallet st uid cfg.referralBonusNewUser
                          .REFERRAL_BONUS_NEW_USER
                          { orderId := some order.mongoId, referralId := some rid } with
                      | (.error e, st1) => (.error e, st1)
                      | (.ok _, st1) =>
                          match creditWallet st1 rid cfg.referralBonusReferrer
                              .REFERRAL_BONUS_REFERRER
                              { orderId := some order.mongoId, referralId := some uid } with
                          | (.error e, st2) => (.error e, st2)
                          | (.ok _, st2) =>
                              let st3 := adjustUser st2 rid (fun cur =>
                                { cur with
                                  referralCount := referrer.referralCount + 1,
                                  referralEarnings :=
                                    referrer.referralEarnings + cfg.referralBonusReferrer })
                              let st4 := adjustUser st3 uid (fun cur =>
                                { cur with referralRewarded := true })
                              (.ok (.rewarded cfg.referralBonusNewUser
                                cfg.referralBonusReferrer), st4)

/-- The referral step of `createOrder`
(`src/controllers/order.controller.js` lines 140-143): the promise is
detached and given a `.catch` handler that only logs, so order placement
continues regardless of the referral outcome; the controller then always
answers 201 success for the created order.  `true` is that success
response, the state is whatever the referral processing left behind. -/
def createOrderReferralStep (cfg : ReferralConfig) (st : LedgerState)
    (order : OrderRec) : Bool × LedgerState :=
  let st' := (processReferralReward cfg st order).snd
  (true, st')

/-- Outcome of the admin status-update controller
(`src/controllers/order.controller.js` `updateOrderStatus`). -/
inductive UpdateResult where
  | invalidStatus
  | notFound
  | invalidTransition (allowedStatuses : List OrderStatus)
  | ok (updated : OrderRec)
deriving DecidableEq, Repr

/-- Replace the order document with the given `_id` (the
`ordersDB.update` / `order.save()` persistence step). -/
def saveOrder (orders : List OrderRec) (id : String) (updated : OrderRec) :
    List OrderRec :=
  orders.map (fun o => if o.mongoId == id then updated else o)

/-- Function `updateOrderStatus` of `src/controllers/order.controller.js`
(lines 374-457): status validity check (an unrecognised status string is
the `none` case), order lookup, `validateStatusTransition` check answering
the allowed next statuses on failure, seeding of a missing
`statusHistory` with the creation status, and the `ordersDB.update` merge
of exactly the fields `status`, `statusHistory` and `updatedAt` — the
merge leaves every other field, including `preparedAt`, `deliveredAt`
and `cancelledAt`, as it was. -/
def updateOrderStatusController (orders : List OrderRec) (id : String)
    (newStatus : Option OrderStatus) (adminId : String) (now : String) :
    UpdateResult × List OrderRec :=
  match newStatus with
  | none => (.invalidStatus, orders)
  | some newStatus =>
      match orders.find? (fun o => o.mongoId == id) with
      | none => (.notFound, orders)
      | some order =>
          let currentStatus := order.status
          if !validateStatusTransition currentStatus newStatus then
            (.invalidTransition (getAllowedNextStatuses currentStatus), orders)
          else
            let history :=
              match order.statusHistory with
              | none =>
                  [{ status := currentStatus, timestamp := order.createdAt,
                     updatedBy := order.user }]
              | some h => h
            let updated : OrderRec :=
              { order with
                status := newStatus,
                statusHistory :=
                  some (history ++
                    [{ status := newStatus, timestamp := now,
                       updatedBy := some adminId }]),
                updatedAt := now }
            (.ok updated, saveOrder orders id updated)

/-- Errors of the order service (`src/services/order.service.js`). -/
inductive OrderErr where
  | OrderNotFound
deriving DecidableEq, Repr

/-- The 24-hex-character MongoDB ObjectId shape test
(`orderId.match of 24 hex characters` in the order service). -/
def isObjectIdFormat (s : String) : Bool :=
  s.length == 24 && s.toList.all (fun c =>
    c.isDigit || ('a' ≤ c && c ≤ 'f') || ('A' ≤ c && c ≤ 'F'))

/-- The dual lookup of the order service's `updateOrderStatus`: by Mongo
`_id` when the identifier has ObjectId shape, falling back to the
human-readable `orderId` field. -/
def findOrderByEitherId (orders : List OrderRec) (id : String) :
    Option OrderRec :=
  let byMongoId :=
    if isObjectIdFormat id then orders.find? (fun o => o.mongoId == id) else none
  match byMongoId with
  | some o => some o
  | none => orders.find? (fun o => o.orderId == id)

/-- Function `updateOrderStatus` of the order service
(`src/services/order.service.js`, unnamed part_012 lines 163-205): dual
id lookup, unconditional status write, and the timestamp side effects —
`preparedAt` for READY, `deliveredAt` for COMPLETED, `cancelledAt` for
CANCELLED — then `order.save()`.  This path performs no transition
validation of its own. -/
def updateOrderStatusService (orders : List OrderRec) (id : String)
    (status : OrderStatus) (now : String) :
    Except OrderErr OrderRec × List OrderRec :=
  match findOrderByEitherId orders id with
  | none => (.error .OrderNotFound, orders)
  | some order =>
      let order1 := { order with status := status }
      let order2 :=
        if status = .READY then { order1 with preparedAt := some now }
        else if status = .COMPLETED then { order1 with deliveredAt := some now }
        else if status = .CANCELLED then { order1 with cancelledAt := some now }
        else order1
      (.ok order2, saveOrder orders order.mongoId order2)

/-- The SSE connection registry of `src/services/event.service.js`:
`clients` maps an order id to the set of subscribed connection handles
(a JS `Set`, modelled as its insertion-ordered duplicate-free list), and
`maxClients` is the per-order capacity (100 in the constructor).
Connection handles are opaque and modelled as naturals. -/
structure OrderEventManager where
  clients : List (String × List Nat)
  maxClients : Nat
deriving DecidableEq, Repr

/-- The manager as built by the constructor: empty registry,
`maxClients = 100`. -/
def freshEventManager : OrderEventManager :=
  { clients := [], maxClients := 100 }

/-- Method `addClient` of `src/services/event.service.js` (lines 23-39):
create the order's (empty) set if absent, refuse with `false` when the
set is at `maxClients`, otherwise add the handle (a `Set.add`: a no-op if
the handle is already present) and answer `true`. -/
def addClient (em : OrderEventManager) (orderId : String) (handle : Nat) :
    Bool × OrderEventManager :=
  let em1 :=
    match lookupAssoc em.clients orderId with
    | some _ => em
    | none => { em with clients := setAssoc em.clients orderId [] }
  let clientSet := (lookupAssoc em1.clients orderId).getD []
  if clientSet.length ≥ em1.maxClients then (false, em1)
  else
    let clientSet' := if handle ∈ clientSet then clientSet else clientSet ++ [handle]
    (true, { em1 with clients := setAssoc em1.clients orderId clientSet' })

/-- Remove an association-list entry by key (the `this.clients.delete`
cleanup). -/
def eraseAssoc {β : Type} : List (String × β) → String → List (String × β)
  | [], _ => []
  | (k, v) :: rest, key =>
      if k = key then rest else (k, v) :: eraseAssoc rest key

/-- Method `removeClient` of `src/services/event.service.js`
(lines 46-59): delete the handle from the order's set and delete the
order's entry entirely once the set is empty. -/
def removeClient (em : OrderEventManager) (orderId : String) (handle : Nat) :
    OrderEventManager :=
  match lookupAssoc em.clients orderId with
  | none => em
  | some clientSet =>
      let clientSet' := clientSet.erase handle
      if clientSet'.length = 0 then
        { em with clients := eraseAssoc em.clients orderId }
      else
        { em with clients := setAssoc em.clients orderId clientSet' }

/-- Method `broadcastOrderUpdate` of `src/services/event.service.js`
(lines 66-87): nothing to do when the order has no entry; otherwise
attempt `res.write` on every subscribed handle, removing a handle whose
write throws and continuing with the rest.  Whether a given handle's
write succeeds is the environment parameter `writeOk`; the function
returns the list of handles that were delivered to, with the updated
registry. -/
def broadcastOrderUpdate (writeOk : Nat → Bool) (em : OrderEventManager)
    (orderId : String) : List Nat × OrderEventManager :=
  match lookupAssoc em.clients orderId with
  | none => ([], em)
  | some clientSet =>
      clientSet.foldl
        (fun acc h =>
          if writeOk h then (acc.fst ++ [h], acc.snd)
          else (acc.fst, removeClient acc.snd orderId h))
        ([], em)

/-- Sequentially subscribe a list of handles to one order, collecting each
`addClient` answer. -/
def subscribeAll (em : OrderEventManager) (orderId : String) :
    List Nat → List Bool × OrderEventManager
  | [] => ([], em)
  | h :: rest =>
      let (b, em1) := addClient em orderId h
      let (bs, em2) := subscribeAll em1 orderId rest
      (b :: bs, em2)

/-- The default referral configuration of `src/config/env.js`. -/
def defaultConfig : ReferralConfig :=
  { referralBonusNewUser := 50, referralBonusReferrer := 50,
    minOrderAmountForReferral := 199 }

/-- A user document as freshly created (wallet balance given, referral
linkage given, all reward bookkeeping at its schema default). -/
def mkUser (bal : Rat) (referredBy : Option String) (hasUsed : Bool) : UserRec :=
  { walletBalance := bal, referredBy := referredBy, hasUsedReferral := hasUsed,
    referralRewarded := false, referralCount := 0, referralEarnings := 0,
    referralCode := "" }

/-- Fixture: one user `u1` with zero balance and an empty log. -/
def stOneUser : LedgerState :=
  { users := [("u1", mkUser 0 none false)], txs := [], orders := [] }

/-- Fixture: one user `u1` with balance 100 and an empty log. -/
def stBalance100 : LedgerState :=
  { users := [("u1", mkUser 100 none false)], txs := [], orders := [] }

/-- Fixture: a qualifying referral situation — new user `nu` referred by
`rf`, both existing, no transactions, no prior orders. -/
def stQual : LedgerState :=
  { users := [("nu", mkUser 0 (some "rf") true), ("rf", mkUser 0 none false)],
    txs := [], orders := [] }

/-- Fixture: a first order of `nu` above the minimum amount. -/
def ordQual : OrderRec :=
  { mongoId := "ord1", orderId := "20250101001", user := some "nu",
    totalAmount := 250, status := .RECEIVED, statusHistory := none,
    createdAt := "t0", updatedAt := "t0", preparedAt := none,
    deliveredAt := none, cancelledAt := none }

/-- Fixture: an order whose `user` field is unset. -/
def ordNoUser : OrderRec :=
  { mongoId := "ord2", orderId := "20250101002", user := none,
    totalAmount := 250, status := .RECEIVED, statusHistory := none,
    createdAt := "t0", updatedAt := "t0", preparedAt := none,
    deliveredAt := none, cancelledAt := none }

/-- Fixture: a freshly placed order in status RECEIVED. -/
def ordReceived : OrderRec :=
  { mongoId := "o1", orderId := "20250101003", user := some "u1",
    totalAmount := 250, status := .RECEIVED, statusHistory := none,
    createdAt := "t0", updatedAt := "t0", preparedAt := none,
    deliveredAt := none, cancelledAt := none }

/-- The order stored by the controller path after a RECEIVED→CANCELLED
transition at time `t1` by `admin`: status and history updated, but the
`cancelledAt` timestamp still unset. -/
def ordCancelledStored : OrderRec :=
  { ordReceived with
    status := .CANCELLED,
    statusHistory := some
      [{ status := .RECEIVED, timestamp := "t0", updatedBy := some "u1" },
       { status := .CANCELLED, timestamp := "t1", updatedBy := some "admin" }],
    updatedAt := "t1" }

/-- Fixture call sequence: a credit, a covered debit, a failing (too
large) debit and a failing (non-positive) credit. -/
def opsExample : List LedgerOp :=
  [.credit "u1" 10 .ADMIN_CREDIT { orderId := none, referralId := none },
   .debit "u1" 4 .ORDER_PAYMENT { orderId := none, referralId := none },
   .debit "u1" 100 .ORDER_PAYMENT { orderId := none, referralId := none },
   .credit "u1" (-5) .ADMIN_CREDIT { orderId := none, referralId := none }]

/-- Interleaved schedule read-read-write-write of two concurrent
`debitWallet(u1, 60)` calls against balance 100: both phase-1 reads run
against `stBalance100` (thread 2 reads before thread 1 reaches its
`await user.save()`), then the writes land one after the other.  This is
thread 1's write. -/
def debitW1 : WalletOpOk × LedgerState :=
  debitPhase2 stBalance100 "u1" 60 .ORDER_PAYMENT
    { orderId := none, referralId := none } (mkUser 100 none false)

/-- Thread 2's write under the same schedule: it applies the snapshot it
read from `stBalance100` (balance 100) to the state thread 1 left. -/
def debitW2 : WalletOpOk × LedgerState :=
  debitPhase2 debitW1.snd "u1" 60 .ORDER_PAYMENT
    { orderId := none, referralId := none } (mkUser 100 none false)

/-- The DEBIT transaction each of the two racing debits records. -/
def raceDebitTx : WalletTx :=
  { user := "u1", type := .DEBIT, amount := 60, reason := .ORDER_PAYMENT,
    orderId := none, referralId := none, balanceAfter := 40 }

/-- An event manager whose registry holds a single order entry (the shape
every state of the one-order subscription scenario has). -/
def singleOrderEM (o : String) (l : List Nat) : OrderEventManager :=
  { clients := [(o, l)], maxClients := 100 }

/-- C1: for every pair of statuses, `validateStatusTransition current target`
is true iff `target` is in the allowed-set of `current` per the fixed
transition table of the spec; in particular RECEIVED→PREPARING is rejected
and RECEIVED→CONFIRMED is accepted.  (The function is a pure Lean function
mirroring the side-effect-free JS source.) -/
theorem validateStatusTransition_matches_spec_table :
    (∀ c t : OrderStatus,
      validateStatusTransition c t = true ↔ t ∈ specAllowedSet c) ∧
    validateStatusTransition .RECEIVED .PREPARING = false ∧
    validateStatusTransition .RECEIVED .CONFIRMED = true := by
  refine ⟨?_, by decide, by decide⟩
  decide

/-- Lookup after an association-list update. -/
theorem lookupAssoc_setAssoc {β : Type} (l : List (String × β)) (k key : String) (v : β) :
    lookupAssoc (setAssoc l k v) key = if k = key then some v else lookupAssoc l key := by
  induction l with
  | nil => by_cases h : k = key <;> simp [setAssoc, lookupAssoc, h]
  | cons hd tl ih =>
      obtain ⟨k', v'⟩ := hd
      by_cases h1 : k' = k
      · subst h1
        by_cases h2 : k' = key <;> simp [setAssoc, lookupAssoc, h2]
      · by_cases h2 : k' = key
        · subst h2
          have hk : ¬ k = k' := fun h => h1 h.symm
          simp [setAssoc, lookupAssoc, h1, hk]
        · simp [setAssoc, lookupAssoc, h1, h2, ih]

/-- A successful lookup comes from a list member. -/
theorem lookupAssoc_mem {β : Type} {l : List (String × β)} {key : String} {v : β}
    (h : lookupAssoc l key = some v) : (key, v) ∈ l := by
  induction l with
  | nil => simp [lookupAssoc] at h
  | cons hd tl ih =>
      obtain ⟨k, w⟩ := hd
      by_cases hk : k = key
      · subst hk
        simp [lookupAssoc] at h
        simp [h]
      · simp [lookupAssoc, hk] at h
        exact List.mem_cons_of_mem _ (ih h)

/-- Appending one transaction changes a user's CREDIT sum by that
transaction's amount exactly when it is a CREDIT of that user. -/
theorem creditSumL_append (txs : List WalletTx) (tx : WalletTx) (u : String) :
    creditSumL (txs ++ [tx]) u =
      creditSumL txs u +
        (if tx.user = u ∧ tx.type = TxType.CREDIT then tx.amount else 0) := by
  by_cases h : tx.user = u ∧ tx.type = TxType.CREDIT
  · simp [creditSumL, List.filter_append, h.1, h.2]
  · rw [if_neg h]
    rcases not_and_or.mp h with h' | h' <;>
      simp [creditSumL, List.filter_append, h']

/-- Appending one transaction changes a user's DEBIT sum by that
transaction's amount exactly when it is a DEBIT of that user. -/
theorem debitSumL_append (txs : List WalletTx) (tx : WalletTx) (u : String) :
    debitSumL (txs ++ [tx]) u =
      debitSumL txs u +
        (if tx.user = u ∧ tx.type = TxType.DEBIT then tx.amount else 0) := by
  by_cases h : tx.user = u ∧ tx.type = TxType.DEBIT
  · simp [debitSumL, List.filter_append, h.1, h.2]
  · rw [if_neg h]
    rcases not_and_or.mp h with h' | h' <;>
      simp [debitSumL, List.filter_append, h']

/-- One ledger call preserves cache/log consistency: the pre-check failure
branches leave the state untouched, and the mutating branches change the
cached balance and the log for the same user by the same amount (the
mutation of `creditWallet` persists even though the call then throws the
`updatedUser` ReferenceError, because both saves precede the throw). -/
theorem ledgerConsistent_runOp (st : LedgerState) (op : LedgerOp)
    (h : ledgerConsistent st) : ledgerConsistent (runOp st op) := by
  cases op with
  | credit userId amount reason opts =>
      show ledgerConsistent (creditWallet st userId amount reason opts).snd
      unfold creditWallet
      by_cases ha : amount ≤ 0
      · simpa [ha] using h
      · rw [if_neg ha]
        cases hu : lookupAssoc st.users userId with
        | none => simpa using h
        | some user =>
            intro v rec hv
            simp only [lookupAssoc_setAssoc] at hv
            rw [creditSumL_append, debitSumL_append]
            by_cases hvu : userId = v
            · subst hvu
              rw [if_pos rfl] at hv
              have hbal := h userId user hu
              cases hv
              simp [hbal]
              ring
            · rw [if_neg hvu] at hv
              have hbal := h v rec hv
              simp [hvu, hbal]
  | debit userId amount reason opts =>
      show ledgerConsistent (debitWallet st userId amount reason opts).snd
      unfold debitWallet
      by_cases ha : amount ≤ 0
      · simpa [ha] using h
      · rw [if_neg ha]
        cases hu : lookupAssoc st.users userId with
        | none => simpa using h
        | some user =>
            dsimp only
            by_cases hb : user.walletBalance < amount
            · simpa [hb] using h
            · rw [if_neg hb]
              intro v rec hv
              simp only [lookupAssoc_setAssoc] at hv
              rw [creditSumL_append, debitSumL_append]
              by_cases hvu : userId = v
              · subst hvu
                rw [if_pos rfl] at hv
                have hbal := h userId user hu
                cases hv
                simp [hbal]
                ring
              · rw [if_neg hvu] at hv
                have hbal := h v rec hv
                simp [hvu, hbal]

/-- Consistency is preserved by any sequence of ledger calls. -/
theorem ledgerConsistent_runOps (ops : List LedgerOp) (st : LedgerState)
    (h : ledgerConsistent st) : ledgerConsistent (runOps st ops) := by
  induction ops generalizing st with
  | nil => simpa [runOps] using h
  | cons op rest ih =>
      have h1 := ledgerConsistent_runOp st op h
      simpa [runOps, List.foldl_cons] using ih (runOp st op) h1

/-- C3: starting from a fresh state (empty transaction log, every stored
balance zero), after any sequence of `creditWallet`/`debitWallet` calls —
successful or failed — `getWalletBalance` of every stored user equals the
sum of that user's CREDIT transaction amounts minus the sum of their
DEBIT transaction amounts in the log: the cached balance and the log do
not diverge. -/
theorem getWalletBalance_matches_transaction_log (ops : List LedgerOp)
    (st0 : LedgerState) (h0 : st0.txs = [])
    (hfresh : ∀ p ∈ st0.users, (p : String × UserRec).2.walletBalance = 0) :
    ∀ u rec, lookupAssoc (runOps st0 ops).users u = some rec →
      getWalletBalance (runOps st0 ops) u =
        .ok (creditSumL (runOps st0 ops).txs u - debitSumL (runOps st0 ops).txs u) := by
  have hc0 : ledgerConsistent st0 := by
    intro u rec hu
    have hm := lookupAssoc_mem hu
    have hz := hfresh (u, rec) hm
    rw [h0]
    simpa [creditSumL, debitSumL] using hz
  have hc := ledgerConsistent_runOps ops st0 hc0
  intro u rec hu
  have := hc u rec hu
  simp [getWalletBalance, hu, this]

/-- C3 witness: evaluating the law on the concrete fixture (a credit of
10, a debit of 4, a failing debit of 100 and a failing credit of -5). -/
theorem getWalletBalance_matches_transaction_log_witness :
    getWalletBalance (runOps stOneUser opsExample) "u1" =
      .ok (creditSumL (runOps stOneUser opsExample).txs "u1" -
        debitSumL (runOps stOneUser opsExample).txs "u1") :=
  getWalletBalance_matches_transaction_log opsExample stOneUser rfl
    (by simp [stOneUser, mkUser]) "u1" (mkUser 6 none false)
    (by norm_num [runOps, runOp, creditWallet, debitWallet, stOneUser,
      opsExample, mkUser, lookupAssoc, setAssoc])

/-- C2 (evidence of the code bug): crediting an existing user with a
positive amount does not return the success result the spec promises —
the return statement references the undefined identifier `updatedUser`
(wallet.service.js line 76) and therefore throws, after the balance has
already been saved and the transaction appended.  Evaluated at the
failing input (user `u1` with balance 0, amount 10): the call errors,
yet the stored balance became 10 and the log gained the CREDIT entry
with `balanceAfter = 10`. -/
theorem creditWallet_throws_after_mutating_state :
    (creditWallet stOneUser "u1" 10 .ADMIN_CREDIT
        { orderId := none, referralId := none }).fst =
      .error .ReferenceErrorUpdatedUser ∧
    lookupAssoc (creditWallet stOneUser "u1" 10 .ADMIN_CREDIT
        { orderId := none, referralId := none }).snd.users "u1" =
      some (mkUser 10 none false) ∧
    (creditWallet stOneUser "u1" 10 .ADMIN_CREDIT
        { orderId := none, referralId := none }).snd.txs =
      [{ user := "u1", type := .CREDIT, amount := 10, reason := .ADMIN_CREDIT,
         orderId := none, referralId := none, balanceAfter := 10 }] := by
  refine ⟨?_, ?_, ?_⟩ <;>
    norm_num [creditWallet, stOneUser, mkUser, lookupAssoc, setAssoc]

/-- C4: for an existing user whose (non-negative) balance is below the
requested amount, `debitWallet` fails with the insufficient-balance error
and returns the state completely unchanged — both the stored balance and
the transaction log, since the check precedes every write.  The
non-negativity hypothesis reflects the schema (`walletBalance` has
`min: 0`); without it a negative amount below a negative balance would
hit the earlier non-positive-amount check instead. -/
theorem debitWallet_insufficient_balance_no_mutation
    (st : LedgerState) (userId : String) (amount : Rat) (reason : TxReason)
    (opts : TxOpts) (user : UserRec)
    (hu : lookupAssoc st.users userId = some user)
    (hnn : 0 ≤ user.walletBalance)
    (hgt : user.walletBalance < amount) :
    debitWallet st userId amount reason opts = (.error .InsufficientBalance, st) := by
  have hpos : ¬ amount ≤ 0 := not_le.mpr (lt_of_le_of_lt hnn hgt)
  unfold debitWallet
  rw [if_neg hpos, hu]
  simp [hgt]

/-- C4 witness: user `u1` with balance 0; a debit of 5 fails with the
insufficient-balance error and leaves the state untouched. -/
theorem debitWallet_insufficient_balance_no_mutation_witness :
    debitWallet stOneUser "u1" 5 .ORDER_PAYMENT
        { orderId := none, referralId := none } =
      (.error .InsufficientBalance, stOneUser) :=
  debitWallet_insufficient_balance_no_mutation stOneUser "u1" 5 .ORDER_PAYMENT
    { orderId := none, referralId := none } (mkUser 0 none false)
    (by norm_num [stOneUser, lookupAssoc, mkUser]) (by norm_num [mkUser])
    (by norm_num [mkUser])

/-- C10: with any positive percentage cap of at most 100 (including the
default 50), `validateWalletUsage` can never report the
exceeds-order-total error: reaching that check requires
`walletAmount ≤ floor(orderTotal * maxPercentage / 100)`, which already
forces `walletAmount ≤ orderTotal`, so the order-total branch is
unreachable. -/
theorem validateWalletUsage_never_reports_exceedsOrderTotal
    (st : LedgerState) (userId : String)
    (walletAmount orderTotal maxPercentage : Rat)
    (hp0 : 0 < maxPercentage) (hp100 : maxPercentage ≤ 100) :
    validateWalletUsage st userId walletAmount orderTotal maxPercentage ≠
      .error .ExceedsOrderTotal := by
  unfold validateWalletUsage
  by_cases hneg : walletAmount < 0
  · simp [hneg]
  rw [if_neg hneg]
  by_cases hz : walletAmount = 0
  · simp [hz]
  rw [if_neg hz]
  have hwa : 0 < walletAmount := lt_of_le_of_ne (not_lt.mp hneg) (Ne.symm hz)
  cases hb : getWalletBalance st userId with
  | error e =>
      have he : e = .AccountNotFound := by
        unfold getWalletBalance at hb
        cases h' : lookupAssoc st.users userId with
        | none => rw [h'] at hb; cases hb; rfl
        | some u => rw [h'] at hb; cases hb
      subst he
      simp
  | ok currentBalance =>
      dsimp only
      by_cases hins : walletAmount > currentBalance
      · simp [hins]
      rw [if_neg hins]
      by_cases hpol :
          walletAmount > ((calculateMaxWalletUsage orderTotal maxPercentage : Int) : Rat)
      · simp [hpol]
      rw [if_neg hpol]
      by_cases hot : walletAmount > orderTotal
      · exfalso
        have hfl : ((calculateMaxWalletUsage orderTotal maxPercentage : Int) : Rat) ≤
            orderTotal * maxPercentage / 100 := by
          unfold calculateMaxWalletUsage
          exact_mod_cast Int.floor_le (orderTotal * maxPercentage / 100)
        have h1 : walletAmount ≤ orderTotal * maxPercentage / 100 :=
          le_trans (not_lt.mp hpol) hfl
        rcases le_or_lt 0 orderTotal with hOT | hOT
        · have h2 : orderTotal * maxPercentage / 100 ≤ orderTotal := by
            rw [div_le_iff₀ (by norm_num : (0:ℚ) < 100)]
            exact mul_le_mul_of_nonneg_left hp100 hOT
          linarith
        · have h2 : orderTotal * maxPercentage / 100 < 0 :=
            div_neg_of_neg_of_pos (mul_neg_of_neg_of_pos hOT hp0) (by norm_num)
          linarith
      · simp [hot]

/-- C10 witness: the theorem applied at the spec's own example
(request 40 of an order total 100 under the default 50 percent cap). -/
theorem validateWalletUsage_never_reports_exceedsOrderTotal_witness :
    validateWalletUsage stOneUser "u1" 40 100 50 ≠ .error .ExceedsOrderTotal :=
  validateWalletUsage_never_reports_exceedsOrderTotal stOneUser "u1" 40 100 50
    (by norm_num) (by norm_num)

/-- The two-phase decomposition is faithful: running phase 1 and, on
success, phase 2 against the same state is exactly `debitWallet` — the
split only makes the `await` suspension point between the snapshot read
and the save visible. -/
theorem debitWallet_eq_phases (st : LedgerState) (userId : String) (amount : Rat)
    (reason : TxReason) (opts : TxOpts) :
    debitWallet st userId amount reason opts =
      match debitPhase1 st userId amount with
      | .error e => (.error e, st)
      | .ok snapshot =>
          ((debitPhase2 st userId amount reason opts snapshot).fst,
           (debitPhase2 st userId amount reason opts snapshot).snd).map Except.ok id := by
  unfold debitWallet debitPhase1 debitPhase2
  by_cases ha : amount ≤ 0
  · simp [ha]
  · cases hu : lookupAssoc st.users userId with
    | none => simp [ha]
    | some user =>
        dsimp only
        by_cases hb : user.walletBalance < amount
        · simp [ha, hb]
        · simp [ha, hb, Prod.map]

/-- C5 (evidence of the race): under the schedule read1-read2-write1-write2
allowed by the code's `findById` / `save` suspension points, two
concurrent `debitWallet(u1, 60)` calls against balance 100 BOTH succeed:
each phase-1 read of the initial state passes the balance check with
snapshot 100, each write completes with success result newBalance 40, and
the final state has balance 40 with TWO DEBIT-60 transactions in the log
(whose sum, 120, no longer matches the cached balance).  The claim that
exactly one of them can succeed is therefore false for this code; the
spec itself flags the non-atomic read-then-write as the underlying
defect (§9). -/
theorem concurrent_debits_both_succeed_schedule :
    debitPhase1 stBalance100 "u1" 60 = .ok (mkUser 100 none false) ∧
    debitW1.fst.newBalance = 40 ∧
    debitW2.fst.newBalance = 40 ∧
    lookupAssoc debitW2.snd.users "u1" = some (mkUser 40 none false) ∧
    debitW2.snd.txs = [raceDebitTx, raceDebitTx] := by
  refine ⟨?_, ?_, ?_, ?_, ?_⟩ <;>
    norm_num [debitPhase1, debitPhase2, debitW1, debitW2, raceDebitTx,
      stBalance100, mkUser, lookupAssoc, setAssoc]

/-- C6: on a qualifying order (user resolvable, referred, referral used,
no prior REFERRAL_BONUS_NEW_USER credit, no prior non-cancelled order,
total at least the minimum, referrer present, positive configured bonus)
`processReferralReward` leaves exactly one REFERRAL_BONUS_NEW_USER CREDIT
transaction for the user; running it again on the same order is a no-op
(the idempotency guard finds the transaction and returns with the state
unchanged); and on ANY state that already holds such a transaction any
run for this user returns `.ok .skipped` with the state untouched — so
at most one such transaction ever exists per user regardless of retries
or duplicate events. -/
theorem processReferralReward_pays_newUser_bonus_once
    (cfg : ReferralConfig) (st : LedgerState) (order : OrderRec)
    (uid rid : String) (newUser referrer : UserRec)
    (hou : order.user = some uid)
    (hnu : lookupAssoc st.users uid = some newUser)
    (href : newUser.referredBy = some rid)
    (hused : newUser.hasUsedReferral = true)
    (hguard : hasNewUserRewardTx st.txs uid = false)
    (hcount : (st.orders.filter (fun o =>
        o.user == some uid && !(o.mongoId == order.mongoId) &&
          !(o.status == OrderStatus.CANCELLED))).length = 0)
    (hmin : ¬ order.totalAmount < cfg.minOrderAmountForReferral)
    (hrf : lookupAssoc st.users rid = some referrer)
    (hbonus : 0 < cfg.referralBonusNewUser) :
    ((processReferralReward cfg st order).snd.txs.filter (fun t =>
        t.user == uid && t.reason == TxReason.REFERRAL_BONUS_NEW_USER &&
          t.type == TxType.CREDIT)).length = 1 ∧
    processReferralReward cfg ((processReferralReward cfg st order).snd) order =
      (.ok .skipped, (processReferralReward cfg st order).snd) ∧
    ∀ (cfg' : ReferralConfig) (st' : LedgerState) (order' : OrderRec),
      order'.user = some uid → hasNewUserRewardTx st'.txs uid = true →
      processReferralReward cfg' st' order' = (.ok .skipped, st') := by
  have hb0 : ¬ cfg.referralBonusNewUser ≤ 0 := not_le.mpr hbonus
  have hrun : processReferralReward cfg st order =
      (.error .ReferenceErrorUpdatedUser,
       { users := setAssoc st.users uid
           { newUser with walletBalance :=
               newUser.walletBalance + cfg.referralBonusNewUser },
         txs := st.txs ++
           [{ user := uid, type := .CREDIT, amount := cfg.referralBonusNewUser,
              reason := .REFERRAL_BONUS_NEW_USER, orderId := some order.mongoId,
              referralId := some rid,
              balanceAfter := newUser.walletBalance + cfg.referralBonusNewUser }],
         orders := st.orders }) := by
    simp only [processReferralReward, creditWallet, hou, hnu, href, hused,
      hguard, hcount, hmin, hrf, hb0]
    simp
  have hfilter0 : st.txs.filter (fun t =>
      t.user == uid && t.reason == TxReason.REFERRAL_BONUS_NEW_USER &&
        t.type == TxType.CREDIT) = [] := by
    unfold hasNewUserRewardTx at hguard
    rw [List.filter_eq_nil_iff]
    intro t ht hpt
    have : st.txs.any (fun t =>
        t.user == uid && t.reason == TxReason.REFERRAL_BONUS_NEW_USER &&
          t.type == TxType.CREDIT) = true :=
      List.any_eq_true.mpr ⟨t, ht, hpt⟩
    rw [hguard] at this
    cases this
  refine ⟨?_, ?_, ?_⟩
  · rw [hrun]
    simp [List.filter_append, hfilter0]
  · rw [hrun]
    simp only [processReferralReward, hou, lookupAssoc_setAssoc, if_pos rfl]
    simp [href, hused, hasNewUserRewardTx, List.any_append]
  · intro cfg' st' order' huser' hguard'
    simp only [processReferralReward, huser']
    cases h1 : lookupAssoc st'.users uid with
    | none => simp
    | some nu' =>
        cases h2 : nu'.referredBy with
        | none => simp [h2]
        | some rid' =>
            cases h3 : nu'.hasUsedReferral with
            | false => simp [h2, h3]
            | true => simp [h2, h3, hguard']

/-- C6 witness: on the qualifying fixture (user `nu` referred by `rf`,
first order of total 250 against the default configuration), the first
run leaves exactly one new-user bonus transaction and the second run is
a no-op. -/
theorem processReferralReward_pays_newUser_bonus_once_witness :
    ((processReferralReward defaultConfig stQual ordQual).snd.txs.filter (fun t =>
        t.user == "nu" && t.reason == TxReason.REFERRAL_BONUS_NEW_USER &&
          t.type == TxType.CREDIT)).length = 1 ∧
    processReferralReward defaultConfig
        ((processReferralReward defaultConfig stQual ordQual).snd) ordQual =
      (.ok .skipped, (processReferralReward defaultConfig stQual ordQual).snd) := by
  have h := processReferralReward_pays_newUser_bonus_once defaultConfig stQual
    ordQual "nu" "rf" (mkUser 0 (some "rf") true) (mkUser 0 none false)
    rfl (by simp [stQual, lookupAssoc, mkUser]) rfl rfl rfl rfl
    (by norm_num [ordQual, defaultConfig])
    (by simp [stQual, lookupAssoc, mkUser])
    (by norm_num [defaultConfig])
  exact ⟨h.1, h.2.1⟩

/-- C7 counterexample: on a qualifying order the bonus disbursement fails
(`creditWallet` throws its `updatedUser` ReferenceError) and
`processReferralReward` re-throws it (referral.service.js lines 585-588),
so the caller receives an exception — refuting the claim that an error
during processing is never propagated. -/
theorem processReferralReward_propagates_disbursement_error :
    (processReferralReward defaultConfig stQual ordQual).fst =
      .error .ReferenceErrorUpdatedUser := by
  norm_num [processReferralReward, creditWallet, stQual, ordQual,
    defaultConfig, mkUser, lookupAssoc, setAssoc, hasNewUserRewardTx]
  rfl

/-- C7 (amended): `processReferralReward` returns normally — logging only,
state untouched — when the order's user cannot be resolved (missing user
field, or no such user document); an exception can escape only after
every qualification check has passed, i.e. from the bonus-disbursement
step, and it is then re-thrown to the caller.  The order flow is still
never failed: `createOrder` detaches the call behind a rejection handler
that only logs, so the order response is success regardless of the
referral outcome. -/
theorem processReferralReward_error_only_from_disbursement :
    (∀ (cfg : ReferralConfig) (st : LedgerState) (order : OrderRec),
      order.user = none → processReferralReward cfg st order = (.ok .skipped, st)) ∧
    (∀ (cfg : ReferralConfig) (st : LedgerState) (order : OrderRec) (uid : String),
      order.user = some uid → lookupAssoc st.users uid = none →
      processReferralReward cfg st order = (.ok .skipped, st)) ∧
    (∀ (cfg : ReferralConfig) (st : LedgerState) (order : OrderRec)
        (e : WalletErr) (st1 : LedgerState),
      processReferralReward cfg st order = (.error e, st1) →
      ∃ uid newUser rid referrer,
        order.user = some uid ∧ lookupAssoc st.users uid = some newUser ∧
        newUser.referredBy = some rid ∧ newUser.hasUsedReferral = true ∧
        hasNewUserRewardTx st.txs uid = false ∧
        lookupAssoc st.users rid = some referrer) ∧
    (∀ (cfg : ReferralConfig) (st : LedgerState) (order : OrderRec),
      (createOrderReferralStep cfg st order).fst = true) := by
  refine ⟨?_, ?_, ?_, ?_⟩
  · intro cfg st order h
    simp [processReferralReward, h]
  · intro cfg st order uid h1 h2
    simp [processReferralReward, h1, h2]
  · intro cfg st order e st1
    simp only [processReferralReward]
    cases hu : order.user with
    | none => simp
    | some uid =>
        cases hnu : lookupAssoc st.users uid with
        | none => simp [hnu]
        | some newUser =>
            cases href : newUser.referredBy with
            | none => simp [hnu, href]
            | some rid =>
                cases hused : newUser.hasUsedReferral with
                | false => simp [hnu, href, hused]
                | true =>
                    cases hguard : hasNewUserRewardTx st.txs uid with
                    | true => simp [hnu, href, hused, hguard]
                    | false =>
                        simp only [hnu, href, hused, hguard, Bool.not_true,
                          Bool.false_eq_true, if_false]
                        by_cases hcnt : 0 < (st.orders.filter (fun o =>
                            o.user == some uid && !(o.mongoId == order.mongoId) &&
                              !(o.status == OrderStatus.CANCELLED))).length
                        · simp [hcnt]
                        · rw [if_neg hcnt]
                          by_cases hmn :
                              order.totalAmount < cfg.minOrderAmountForReferral
                          · simp [hmn]
                          · rw [if_neg hmn]
                            cases hrf : lookupAssoc st.users rid with
                            | none => simp [hrf]
                            | some referrer =>
                                intro _
                                exact ⟨uid, newUser, rid, referrer,
                                  by simp [hu], hnu, href, hused, hguard, hrf⟩
  · intro cfg st order
    rfl

/-- C7 amended witness: the resolution-failure clause applied to the
fixture order that carries no user (the call returns normally with the
state unchanged), and the detached-call clause applied at the qualifying
fixture (the order response is success even though the inner processing
threw). -/
theorem processReferralReward_error_only_from_disbursement_witness :
    processReferralReward defaultConfig stOneUser ordNoUser =
      (.ok .skipped, stOneUser) ∧
    (createOrderReferralStep defaultConfig stQual ordQual).fst = true :=
  ⟨processReferralReward_error_only_from_disbursement.1 defaultConfig stOneUser
      ordNoUser rfl,
   processReferralReward_error_only_from_disbursement.2.2.2 defaultConfig
      stQual ordQual⟩

/-- C8 counterexample: the validated transition path that is actually
wired to the admin route (`order.controller.js` `updateOrderStatus`)
accepts RECEIVED→CANCELLED on the fixture order and persists it — but the
stored order's `cancelledAt` (like `preparedAt` and `deliveredAt`)
remains unset, because the `ordersDB.update` merge only writes `status`,
`statusHistory` and `updatedAt`. -/
theorem updateOrderStatusController_cancel_sets_no_timestamp :
    updateOrderStatusController [ordReceived] "o1" (some .CANCELLED) "admin" "t1" =
      (.ok ordCancelledStored, [ordCancelledStored]) ∧
    ordCancelledStored.cancelledAt = none ∧
    ordCancelledStored.preparedAt = none ∧
    ordCancelledStored.deliveredAt = none := by
  refine ⟨?_, rfl, rfl, rfl⟩
  norm_num [updateOrderStatusController, ordReceived, ordCancelledStored,
    validateStatusTransition, STATUS_FLOW, getAllowedNextStatuses, saveOrder]

/-- C8 (amended): the timestamp side effects live only in the order
service's `updateOrderStatus` (part_012): whenever that path finds the
order, it succeeds, and the saved order carries `preparedAt = now`
exactly when the applied status is READY, `deliveredAt = now` exactly
when it is COMPLETED, `cancelledAt = now` exactly when it is CANCELLED,
each field unchanged otherwise; the result is persisted in place of the
found order. -/
theorem updateOrderStatusService_sets_timestamps
    (orders : List OrderRec) (id : String) (status : OrderStatus)
    (now : String) (order : OrderRec)
    (hfind : findOrderByEitherId orders id = some order) :
    ∀ upd orders',
      updateOrderStatusService orders id status now = (.ok upd, orders') →
      upd.status = status ∧
      upd.preparedAt = (if status = .READY then some now else order.preparedAt) ∧
      upd.deliveredAt = (if status = .COMPLETED then some now else order.deliveredAt) ∧
      upd.cancelledAt = (if status = .CANCELLED then some now else order.cancelledAt) ∧
      orders' = saveOrder orders order.mongoId upd := by
  intro upd orders' h
  unfold updateOrderStatusService at h
  rw [hfind] at h
  cases status <;>
    (simp at h
     obtain ⟨h1, h2⟩ := h
     subst h1
     subst h2
     simp)

/-- C8 amended witness: applying the service path to a one-order store by
its human-readable code with target CANCELLED sets `cancelledAt` and
leaves the other two timestamps unchanged. -/
theorem updateOrderStatusService_sets_timestamps_witness :
    ({ ordReceived with status := .CANCELLED, cancelledAt := some "t1" }
        : OrderRec).cancelledAt = some "t1" ∧
    ({ ordReceived with status := .CANCELLED, cancelledAt := some "t1" }
        : OrderRec).preparedAt = none := by
  have hA : isObjectIdFormat "20250101003" = false := by decide
  have h := updateOrderStatusService_sets_timestamps [ordReceived]
    "20250101003" OrderStatus.CANCELLED "t1" ordReceived
    (by simp [findOrderByEitherId, hA, ordReceived])
    { ordReceived with status := .CANCELLED, cancelledAt := some "t1" }
    (saveOrder [ordReceived] "o1"
      { ordReceived with status := .CANCELLED, cancelledAt := some "t1" })
    (by simp [updateOrderStatusService, findOrderByEitherId, hA, ordReceived,
      saveOrder])
  refine ⟨?_, ?_⟩
  · rw [h.2.2.2.1]
    simp
  · rw [h.2.1]
    simp [ordReceived]

/-- The first subscription creates the order's entry and registers the
handle. -/
theorem addClient_fresh (o : String) (h : Nat) :
    addClient freshEventManager o h = (true, singleOrderEM o [h]) := by
  simp [addClient, freshEventManager, singleOrderEM, lookupAssoc, setAssoc]

/-- A subscription below capacity with a new handle succeeds and appends
the handle. -/
theorem addClient_below_capacity (o : String) (l : List Nat) (h : Nat)
    (hlt : l.length < 100) (hni : h ∉ l) :
    addClient (singleOrderEM o l) o h = (true, singleOrderEM o (l ++ [h])) := by
  have hge : ¬ l.length ≥ 100 := not_le.mpr hlt
  simp [addClient, singleOrderEM, lookupAssoc, setAssoc, hge, hni]

/-- A subscription at capacity is refused and registers nothing. -/
theorem addClient_at_capacity (o : String) (l : List Nat) (h : Nat)
    (hfull : 100 ≤ l.length) :
    addClient (singleOrderEM o l) o h = (false, singleOrderEM o l) := by
  simp [addClient, singleOrderEM, lookupAssoc, setAssoc, hfull]

/-- Sequential subscription of distinct fresh handles that fit below
capacity: every answer is `true` and the registry grows by exactly those
handles in order. -/
theorem subscribeAll_below_capacity (o : String) :
    ∀ (hs l : List Nat), (l ++ hs).Nodup → l.length + hs.length ≤ 100 →
      subscribeAll (singleOrderEM o l) o hs =
        (List.replicate hs.length true, singleOrderEM o (l ++ hs)) := by
  intro hs
  induction hs with
  | nil => intro l _ _; simp [subscribeAll]
  | cons h t ih =>
      intro l hnd hle
      have hni : h ∉ l := by
        rcases List.nodup_append.mp hnd with ⟨_, _, hdisj⟩
        exact fun hm => hdisj hm (List.mem_cons_self h t)
      have hlt : l.length < 100 := by
        have := List.length_cons h t
        omega
      have hstep := addClient_below_capacity o l h hlt hni
      have hnd' : ((l ++ [h]) ++ t).Nodup := by
        rw [List.append_assoc]
        simpa using hnd
      have hle' : (l ++ [h]).length + t.length ≤ 100 := by
        simp only [List.length_append, List.length_cons, List.length_nil] at hle ⊢
        omega
      have ihm := ih (l ++ [h]) hnd' hle'
      simp [subscribeAll, hstep, ihm, List.replicate_succ, List.append_assoc]

/-- Subscribing a concatenation is subscribing the parts in sequence. -/
theorem subscribeAll_append (o : String) (xs ys : List Nat) :
    ∀ em : OrderEventManager,
      subscribeAll em o (xs ++ ys) =
        ((subscribeAll em o xs).fst ++
          (subscribeAll (subscribeAll em o xs).snd o ys).fst,
         (subscribeAll (subscribeAll em o xs).snd o ys).snd) := by
  induction xs with
  | nil => intro em; simp [subscribeAll]
  | cons h t ih => intro em; simp [subscribeAll, ih]

/-- Removing a handle from a one-order registry whose set stays nonempty
erases exactly that handle. -/
theorem removeClient_single (o : String) (l : List Nat) (h : Nat)
    (hne : (l.erase h).length ≠ 0) :
    removeClient (singleOrderEM o l) o h = singleOrderEM o (l.erase h) := by
  simp [removeClient, singleOrderEM, lookupAssoc, setAssoc, hne]

/-- Broadcast with every write succeeding delivers to every registered
handle of the order, in registration order, and leaves the registry
unchanged. -/
theorem broadcastOrderUpdate_all_ok (em : OrderEventManager) (o : String)
    (l : List Nat) (hl : lookupAssoc em.clients o = some l) :
    broadcastOrderUpdate (fun _ => true) em o = (l, em) := by
  unfold broadcastOrderUpdate
  rw [hl]
  suffices hgen : ∀ (l' : List Nat) (acc : List Nat),
      l'.foldl (fun acc h => if (fun (_ : Nat) => true) h then (acc.fst ++ [h], acc.snd)
        else (acc.fst, removeClient acc.snd o h)) (acc, em) = (acc ++ l', em) by
    simpa using hgen l []
  intro l'
  induction l' with
  | nil => intro acc; simp
  | cons h t ih => intro acc; simpa [List.append_assoc] using ih (acc ++ [h])

/-- C9: for one order at the default capacity 100, subscribing 101
distinct handles answers `true` for each of the first 100 (which are
registered in order), `false` for the 101st (which is not registered);
and after removing any one registered handle, a broadcast whose writes
all succeed delivers the payload exactly to the remaining 99 registered
handles and leaves the registry unchanged. -/
theorem subscriber_capacity_and_fanout (o : String) (hs : List Nat)
    (hnd : hs.Nodup) (hlen : hs.length = 101) :
    (subscribeAll freshEventManager o hs).fst =
      List.replicate 100 true ++ [false] ∧
    (subscribeAll freshEventManager o hs).snd = singleOrderEM o (hs.take 100) ∧
    ∀ hrem ∈ hs.take 100,
      broadcastOrderUpdate (fun _ => true)
          (removeClient (singleOrderEM o (hs.take 100)) o hrem) o =
        ((hs.take 100).erase hrem,
         removeClient (singleOrderEM o (hs.take 100)) o hrem) := by
  have htake_len : (hs.take 100).length = 100 := by
    rw [List.length_take, hlen]
    omega
  have hsplit : hs.take 100 ++ hs.drop 100 = hs := List.take_append_drop 100 hs
  have hdrop_len : (hs.drop 100).length = 1 := by
    rw [List.length_drop, hlen]
  obtain ⟨z, hz⟩ := List.length_eq_one.mp hdrop_len
  have htake_nodup : (hs.take 100 ++ [z]).Nodup := by
    rw [← hz, hsplit]; exact hnd
  have hfirst : subscribeAll freshEventManager o (hs.take 100) =
      (List.replicate 100 true, singleOrderEM o (hs.take 100)) := by
    cases ht : hs.take 100 with
    | nil => rw [ht] at htake_len; simp at htake_len
    | cons h0 t0 =>
        have hnd0 : ([h0] ++ t0).Nodup := by
          have := htake_nodup
          rw [ht] at this
          simpa using (List.nodup_append.mp this).1
        have hle0 : ([h0] : List Nat).length + t0.length ≤ 100 := by
          have := htake_len
          rw [ht] at this
          simp only [List.length_cons] at this
          simp
          omega
        have hr := subscribeAll_below_capacity o t0 [h0] hnd0 hle0
        have hlen0 : t0.length = 99 := by
          have := htake_len
          rw [ht] at this
          simp only [List.length_cons] at this
          omega
        simp [subscribeAll, addClient_fresh, hr, hlen0, List.replicate_succ]
  have hlast : addClient (singleOrderEM o (hs.take 100)) o z =
      (false, singleOrderEM o (hs.take 100)) :=
    addClient_at_capacity o (hs.take 100) z (le_of_eq htake_len.symm)
  have hs_eq : hs = hs.take 100 ++ [z] := by
    rw [← hz]
    exact hsplit.symm
  have hwhole := subscribeAll_append o (hs.take 100) [z] freshEventManager
  have hkey : subscribeAll freshEventManager o hs =
      subscribeAll freshEventManager o (hs.take 100 ++ [z]) := by
    rw [← hs_eq]
  rw [hkey, hwhole, hfirst]
  refine ⟨by simp [subscribeAll, hlast], by simp [subscribeAll, hlast], ?_⟩
  intro hrem hmem
  have herase_len : ((hs.take 100).erase hrem).length = 99 := by
    rw [List.length_erase_of_mem hmem, htake_len]
  have hrm := removeClient_single o (hs.take 100) hrem (by omega)
  rw [hrm]
  exact broadcastOrderUpdate_all_ok _ o _ (by simp [singleOrderEM, lookupAssoc])

/-- C9 witness: the scenario run with handles 0..100 on order `order1`,
removing handle 0 before the broadcast. -/
theorem subscriber_capacity_and_fanout_witness :
    (subscribeAll freshEventManager "order1" (List.range 101)).fst =
      List.replicate 100 true ++ [false] ∧
    broadcastOrderUpdate (fun _ => true)
        (removeClient (singleOrderEM "order1" ((List.range 101).take 100))
          "order1" 0) "order1" =
      (((List.range 101).take 100).erase 0,
       removeClient (singleOrderEM "order1" ((List.range 101).take 100))
         "order1" 0) := by
  have h := subscriber_capacity_and_fanout "order1" (List.range 101)
    (List.nodup_range 101) (by simp)
  exact ⟨h.1, h.2.2 0 (by decide)⟩
